import Mathlib

/-!
Verification development for the `ag-ui-build-asistant` frontend client.

The definitions below are a shallow embedding of the TypeScript sources:

* `Api` embeds `src/frontend/src/lib/api.ts` (the `ApiClient` class:
  error classification, exponential-backoff delay computation and the
  retry loop of `ApiClient.request`) together with the constants of
  `config.ts` that feed its retry configuration.
* `WS` embeds the outbound-queue part of the `WebSocketManager` class of
  the same file (`send`, `processMessageQueue`, and the queue drain that
  the `connect` success handler performs).
* `Store` embeds the zustand store of the agent dashboard
  (`useAgentStore`: agents, workflows, approvals, activity log) as a
  state type plus one Lean function per named store action, and a small
  action language `Store.Action` with `Store.step` / `Store.run` giving
  the effect of a sequence of store actions.

JavaScript numbers only ever hold small non-negative integers in the
code paths modelled here (HTTP statuses, millisecond delays, attempt
counters, progress percentages), so they are embedded as `Nat`.
`Date.now()` and `new Date().toISOString()` are modelled by an explicit
`now : Nat` argument on the actions that read the clock; untyped (`any`)
payloads that the code merely stores and never inspects are modelled as
`String`/`Option String` placeholders.
-/

namespace Api

/-- Values accepted by `retryableErrors` in `api.ts`: the array mixes
HTTP status numbers and error-code strings (`(string | number)[]`). -/
inductive RetryKey where
  | num (n : Nat)
  | str (s : String)
deriving DecidableEq

/-- `RetryConfig` interface of `api.ts`. -/
structure RetryConfig where
  maxAttempts : Nat
  baseDelay : Nat
  maxDelay : Nat
  backoffFactor : Nat
  retryableErrors : List RetryKey
deriving DecidableEq

/-- `Partial<RetryConfig>`: the optional per-call overrides accepted by
`ApiClient.request`. -/
structure RetryConfigOverrides where
  maxAttempts : Option Nat := none
  baseDelay : Option Nat := none
  maxDelay : Option Nat := none
  backoffFactor : Option Nat := none
  retryableErrors : Option (List RetryKey) := none
deriving DecidableEq

/-- The object spread `{ ...this.retryConfig, ...customRetryConfig }`
performed at the top of `ApiClient.request`. -/
def mergeRetryConfig (base : RetryConfig) (c : RetryConfigOverrides) : RetryConfig :=
  { maxAttempts := c.maxAttempts.getD base.maxAttempts
    baseDelay := c.baseDelay.getD base.baseDelay
    maxDelay := c.maxDelay.getD base.maxDelay
    backoffFactor := c.backoffFactor.getD base.backoffFactor
    retryableErrors := c.retryableErrors.getD base.retryableErrors }

/-- `config.retryAttempts` in `config.ts`. -/
def configRetryAttempts : Nat := 3

/-- `config.retryDelay` in `config.ts` (milliseconds). -/
def configRetryDelay : Nat := 1000

/-- The retry configuration built in the `ApiClient` constructor. -/
def defaultRetryConfig : RetryConfig :=
  { maxAttempts := configRetryAttempts
    baseDelay := configRetryDelay
    maxDelay := 30000
    backoffFactor := 2
    retryableErrors :=
      [.num 408, .num 429, .num 500, .num 502, .num 503, .num 504,
       .str "ECONNABORTED", .str "NETWORK_ERROR"] }

/-- `ApiError` interface of `api.ts` (the untyped `details` payload is
carried opaquely and not modelled field-by-field). -/
structure ApiError where
  message : String
  code : Option String
  status : Option Nat
  retryable : Bool
deriving DecidableEq

/-- The `data` object of an axios error response, restricted to the
fields `handleError` reads (`message`, `detail`, `code`). -/
structure ResponseData where
  message : Option String := none
  detail : Option String := none
  code : Option String := none
deriving DecidableEq

/-- The three shapes of axios error that `handleError` discriminates:
`error.response` present (server answered with an error status),
`error.request` present (request sent, no response), anything else. -/
inductive RawError where
  | response (status : Nat) (data : ResponseData)
  | request
  | other (message : Option String) (code : Option String)
deriving DecidableEq

/-- `ApiClient.isRetryableError`: `undefined` (here `none`) is falsy and
yields `false`; otherwise membership in `retryableErrors` (JS
`Array.includes`). -/
def isRetryableError (cfg : RetryConfig) (e : Option RetryKey) : Bool :=
  match e with
  | none => false
  | some k => cfg.retryableErrors.contains k

/-- `ApiClient.handleError`, producing the structured `ApiError`. -/
def handleError (cfg : RetryConfig) (e : RawError) : ApiError :=
  match e with
  | .response status data =>
      { message := ((data.message).orElse (fun _ => data.detail)).getD
          ("HTTP " ++ toString status ++ " Error")
        code := data.code
        status := some status
        retryable := isRetryableError cfg (some (.num status)) }
  | .request =>
      { message := "Network error - no response received"
        code := some "NETWORK_ERROR"
        status := none
        retryable := true }
  | .other message code =>
      { message := message.getD "Unknown error occurred"
        code := code
        status := none
        retryable := isRetryableError cfg (code.map .str) }

/-- Outcome of one underlying `this.client.request` call: either a
successful response or a rejection (which the axios response
interceptor has the client reject with `handleError raw`). -/
inductive AttemptOutcome (T : Type) where
  | success (resp : T)
  | failure (raw : RawError)

/-- Observable result of `ApiClient.request`: the returned response or
thrown `ApiError`, the number of underlying attempts performed, and the
list of `sleep` durations awaited between consecutive attempts. -/
structure RequestResult (T : Type) where
  outcome : Except ApiError T
  attempts : Nat
  sleeps : List Nat

/-- `ApiClient.calculateDelay` (uses the instance configuration). -/
def calculateDelay (cfg : RetryConfig) (attempt : Nat) : Nat :=
  min (cfg.baseDelay * cfg.backoffFactor ^ (attempt - 1)) cfg.maxDelay

/-- The initial `lastError` value of `ApiClient.request`. -/
def initialLastError : ApiError :=
  { message := "Unknown error", code := none, status := none, retryable := false }

/-- The `for (let attempt = 1; attempt <= maxAttempts; attempt++)` loop
of `ApiClient.request`.  The source iterates `attempt` from `1` to
`maxAttempts`; here `remaining = maxAttempts - attempt + 1` counts the
iterations left, so the source's break test
`attempt === retryConfig.maxAttempts` appears as `r = 0` (one iteration
left) and falling out of the loop (`remaining = 0`) throws `lastError`.
`instCfg` is the instance configuration `this.retryConfig`, which the
source uses for `calculateDelay` and (via the interceptors) for
`handleError`, independently of the merged per-call configuration. -/
def requestLoop {T : Type} (instCfg : RetryConfig) (outcomes : Nat → AttemptOutcome T) :
    Nat → Nat → ApiError → RequestResult T
  | _, 0, lastError => { outcome := .error lastError, attempts := 0, sleeps := [] }
  | attempt, r + 1, _ =>
      match outcomes attempt with
      | .success resp => { outcome := .ok resp, attempts := 1, sleeps := [] }
      | .failure raw =>
          let lastError := handleError instCfg raw
          if r = 0 ∨ lastError.retryable = false then
            { outcome := .error lastError, attempts := 1, sleeps := [] }
          else
            let d := calculateDelay instCfg attempt
            let rest := requestLoop instCfg outcomes (attempt + 1) r lastError
            { outcome := rest.outcome, attempts := rest.attempts + 1, sleeps := d :: rest.sleeps }

/-- `ApiClient.request`: merges the per-call overrides (only the merged
`maxAttempts` is consulted by the loop; delays and error classification
use the instance configuration, exactly as in the source) and runs the
attempt loop starting at attempt 1. -/
def request {T : Type} (instCfg : RetryConfig) (custom : RetryConfigOverrides)
    (outcomes : Nat → AttemptOutcome T) : RequestResult T :=
  requestLoop instCfg outcomes 1 (mergeRetryConfig instCfg custom).maxAttempts initialLastError

end Api

namespace WS

/-- `WebSocketMessage` interface of `api.ts`; the untyped `data`
payload is a type parameter. -/
structure WebSocketMessage (α : Type) where
  type : String
  data : α
  timestamp : String
deriving DecidableEq

/-- The part of `WebSocketManager`'s state that the outbound-message
path touches: the socket connectivity flag (`this.socket?.connected`),
the `isConnecting` flag, the outbound `messageQueue`, and — as the
observable output — the ordered log `emitted` of every
`socket.emit('message', m)` performed so far. -/
structure WSState (α : Type) where
  connected : Bool
  isConnecting : Bool
  messageQueue : List (WebSocketMessage α)
  emitted : List (WebSocketMessage α)
deriving DecidableEq

/-- `WebSocketManager.send(event, data)`: builds the timestamped
envelope; if connected, emits it immediately; otherwise appends it to
`messageQueue` (the `connect()` it then triggers is asynchronous and
does not change the queue — its eventual success is modelled by
`onConnectSuccess` below). -/
def send {α : Type} (st : WSState α) (event : String) (data : α) (now : String) :
    WSState α :=
  let message : WebSocketMessage α := { type := event, data := data, timestamp := now }
  if st.connected then
    { st with emitted := st.emitted ++ [message] }
  else
    { st with messageQueue := st.messageQueue ++ [message] }

/-- The `while (this.messageQueue.length > 0 && this.socket?.connected)`
loop of `WebSocketManager.processMessageQueue`: `shift()` the head and
emit it.  Emitting does not alter connectivity and the model is
single-threaded, so `connected` is a constant of the loop. -/
def processQueueAux {α : Type} (connected : Bool) :
    List (WebSocketMessage α) → List (WebSocketMessage α) →
      List (WebSocketMessage α) × List (WebSocketMessage α)
  | [], emitted => ([], emitted)
  | m :: rest, emitted =>
      if connected then processQueueAux connected rest (emitted ++ [m])
      else (m :: rest, emitted)

/-- `WebSocketManager.processMessageQueue`. -/
def processMessageQueue {α : Type} (st : WSState α) : WSState α :=
  let p := processQueueAux st.connected st.messageQueue st.emitted
  { st with messageQueue := p.1, emitted := p.2 }

/-- The `connect` success handler (`socket.once('connect', ...)`): the
socket is now connected, `isConnecting` is cleared, and
`processMessageQueue()` drains the queue. -/
def onConnectSuccess {α : Type} (st : WSState α) : WSState α :=
  processMessageQueue { st with connected := true, isConnecting := false }

/-- One `send(event, data)` call described by its arguments (plus the
timestamp the envelope receives). -/
def sendAll {α : Type} (st : WSState α) (calls : List (String × α × String)) :
    WSState α :=
  calls.foldl (fun s c => send s c.1 c.2.1 c.2.2) st

/-- The envelope that `send` builds for one call. -/
def envelope {α : Type} (c : String × α × String) : WebSocketMessage α :=
  { type := c.1, data := c.2.1, timestamp := c.2.2 }

end WS

namespace Store

/-- Agent status union of the store (`'idle' | 'running' | 'completed'
| 'error'`). -/
inductive AgentStatus where
  | idle
  | running
  | completed
  | error
deriving DecidableEq

/-- `Agent` interface of the zustand store. -/
structure Agent where
  id : String
  name : String
  status : AgentStatus
  currentTask : Option String := none
  lastCompleted : Option String := none
  error : Option String := none
  progress : Option Nat := none
deriving DecidableEq

/-- Workflow status union (`'pending' | 'running' | 'completed' |
'error'`). -/
inductive WorkflowStatus where
  | pending
  | running
  | completed
  | error
deriving DecidableEq

/-- `Workflow` interface of the store; the untyped `results` payload is
carried opaquely as a `String`. -/
structure Workflow where
  id : String
  type : String
  status : WorkflowStatus
  startTime : Option String := none
  endTime : Option String := none
  steps : List String
  currentStep : Option String := none
  results : Option String := none
  error : Option String := none
deriving DecidableEq

/-- Risk-level union of `ApprovalRequest`. -/
inductive RiskLevel where
  | low
  | medium
  | high
  | critical
deriving DecidableEq

/-- Approval status union (`'pending' | 'approved' | 'rejected'`). -/
inductive ApprovalStatus where
  | pending
  | approved
  | rejected
deriving DecidableEq

/-- `ApprovalRequest` interface of the store. -/
structure ApprovalRequest where
  id : String
  actionType : String
  description : String
  riskLevel : RiskLevel
  estimatedCost : Option Nat := none
  estimatedDuration : Option Nat := none
  agentInvolved : Option String := none
  status : ApprovalStatus
  timestamp : String
deriving DecidableEq

/-- The argument of `addApprovalRequest`:
`Omit<ApprovalRequest, 'id' | 'timestamp' | 'status'>`. -/
structure ApprovalRequestInput where
  actionType : String
  description : String
  riskLevel : RiskLevel
  estimatedCost : Option Nat := none
  estimatedDuration : Option Nat := none
  agentInvolved : Option String := none
deriving DecidableEq

/-- One entry of the activity log; the untyped `details` payload is
carried opaquely. -/
structure ActivityEntry where
  id : String
  agentId : String
  action : String
  timestamp : String
  details : Option String := none
deriving DecidableEq

/-- The state slice of `useAgentStore` (the action closures live on the
same object in the source; here they are the functions below). -/
structure AgentState where
  agents : List Agent
  workflows : List Workflow
  activeWorkflow : Option Workflow
  pendingApprovals : List ApprovalRequest
  isExecuting : Bool
  currentTask : Option String
  activityLog : List ActivityEntry
deriving DecidableEq

/-- The fixed five-agent catalog `initialAgents`. -/
def initialAgents : List Agent :=
  [ { id := "repository_analyzer", name := "Repository Analyzer", status := .idle },
    { id := "requirements_extractor", name := "Requirements Extractor", status := .idle },
    { id := "architecture_designer", name := "Architecture Designer", status := .idle },
    { id := "implementation_planner", name := "Implementation Planner", status := .idle },
    { id := "validator", name := "Validator", status := .idle } ]

/-- The store's initial state. -/
def initialState : AgentState :=
  { agents := initialAgents
    workflows := []
    activeWorkflow := none
    pendingApprovals := []
    isExecuting := false
    currentTask := none
    activityLog := [] }

/-- `updateAgentStatus` action: map over `agents`, replacing the
matching record's `status`/`currentTask`/`error` and setting `progress`
to 100 when the new status is `completed`, else 0. -/
def updateAgentStatus (agentId : String) (status : AgentStatus)
    (task errText : Option String) (agents : List Agent) : List Agent :=
  agents.map fun agent =>
    if agent.id = agentId then
      { agent with status := status, currentTask := task, error := errText,
                   progress := some (if status = .completed then 100 else 0) }
    else agent

/-- `updateAgentProgress` action. -/
def updateAgentProgress (agentId : String) (progress : Nat)
    (agents : List Agent) : List Agent :=
  agents.map fun agent =>
    if agent.id = agentId then { agent with progress := some progress } else agent

/-- `startWorkflow` action: `Date.now()` is the explicit `now`;
`steps[0]` on an empty array is `undefined`, i.e. `steps.head?`. -/
def startWorkflow (now : Nat) (type_ : String) (steps : List String)
    (s : AgentState) : AgentState :=
  let workflow : Workflow :=
    { id := "workflow_" ++ toString now
      type := type_
      status := .running
      startTime := some (toString now)
      steps := steps
      currentStep := steps.head? }
  { s with workflows := s.workflows ++ [workflow]
           activeWorkflow := some workflow
           isExecuting := true
           currentTask := some ("Running " ++ type_ ++ " workflow") }

/-- `updateWorkflowStatus` action (the `now` argument stands for the
`new Date().toISOString()` stamped into `endTime` on terminal status). -/
def updateWorkflowStatus (now : Nat) (workflowId : String)
    (status : WorkflowStatus) (currentStep errText : Option String)
    (s : AgentState) : AgentState :=
  { s with
    workflows := s.workflows.map fun w =>
      if w.id = workflowId then
        { w with status := status, currentStep := currentStep, error := errText,
                 endTime :=
                   if status = .completed ∨ status = .error
                   then some (toString now) else none }
      else w
    activeWorkflow :=
      match s.activeWorkflow with
      | some aw =>
          if aw.id = workflowId then
            some { aw with status := status, currentStep := currentStep, error := errText }
          else some aw
      | none => none }

/-- `completeWorkflow` action. -/
def completeWorkflow (now : Nat) (workflowId : String) (results : String)
    (s : AgentState) : AgentState :=
  { s with
    workflows := s.workflows.map fun w =>
      if w.id = workflowId then
        { w with status := .completed, results := some results,
                 endTime := some (toString now) }
      else w
    activeWorkflow :=
      match s.activeWorkflow with
      | some aw =>
          if aw.id = workflowId then
            some { aw with status := .completed, results := some results }
          else some aw
      | none => none
    isExecuting := false
    currentTask := none }

/-- `addApprovalRequest` action: appends a fresh record with generated
id `approval_${Date.now()}`, current timestamp, status `pending`. -/
def addApprovalRequest (now : Nat) (request : ApprovalRequestInput)
    (s : AgentState) : AgentState :=
  let approval : ApprovalRequest :=
    { id := "approval_" ++ toString now
      actionType := request.actionType
      description := request.description
      riskLevel := request.riskLevel
      estimatedCost := request.estimatedCost
      estimatedDuration := request.estimatedDuration
      agentInvolved := request.agentInvolved
      status := .pending
      timestamp := toString now }
  { s with pendingApprovals := s.pendingApprovals ++ [approval] }

/-- `resolveApprovalRequest` action: map over `pendingApprovals`,
flipping the status of the record whose id matches (no check of the
current status is performed by the source). -/
def resolveApprovalRequest (requestId : String) (approved : Bool)
    (s : AgentState) : AgentState :=
  { s with
    pendingApprovals := s.pendingApprovals.map fun req =>
      if req.id = requestId then
        { req with status := if approved then .approved else .rejected }
      else req }

/-- `addActivity` action: prepends a fresh entry and keeps
`state.activityLog.slice(0, 99)` of the previous log. -/
def addActivity (now : Nat) (agentId action : String) (details : Option String)
    (s : AgentState) : AgentState :=
  let activity : ActivityEntry :=
    { id := "activity_" ++ toString now
      agentId := agentId
      action := action
      timestamp := toString now
      details := details }
  { s with activityLog := activity :: s.activityLog.take 99 }

/-- `setExecuting` action (`task || null` maps the empty string — a JS
falsy value — to `null`). -/
def setExecuting (executing : Bool) (task : Option String)
    (s : AgentState) : AgentState :=
  { s with isExecuting := executing
           currentTask :=
             match task with
             | some t => if t = "" then none else some t
             | none => none }

/-- The store's named actions, with every `Date.now()` read made an
explicit argument. -/
inductive Action where
  | updateAgentStatus (agentId : String) (status : AgentStatus)
      (task errText : Option String)
  | updateAgentProgress (agentId : String) (progress : Nat)
  | resetAgents
  | startWorkflow (now : Nat) (type_ : String) (steps : List String)
  | updateWorkflowStatus (now : Nat) (workflowId : String)
      (status : WorkflowStatus) (currentStep errText : Option String)
  | completeWorkflow (now : Nat) (workflowId : String) (results : String)
  | clearWorkflows
  | addApprovalRequest (now : Nat) (request : ApprovalRequestInput)
  | resolveApprovalRequest (requestId : String) (approved : Bool)
  | clearApprovals
  | setExecuting (executing : Bool) (task : Option String)
  | addActivity (now : Nat) (agentId action : String) (details : Option String)
  | clearActivity

/-- Effect of one store action on the state (one case per `set` call in
the source). -/
def step (s : AgentState) : Action → AgentState
  | .updateAgentStatus agentId status task errText =>
      { s with agents := updateAgentStatus agentId status task errText s.agents }
  | .updateAgentProgress agentId progress =>
      { s with agents := updateAgentProgress agentId progress s.agents }
  | .resetAgents => { s with agents := initialAgents }
  | .startWorkflow now type_ steps => startWorkflow now type_ steps s
  | .updateWorkflowStatus now workflowId status currentStep errText =>
      updateWorkflowStatus now workflowId status currentStep errText s
  | .completeWorkflow now workflowId results => completeWorkflow now workflowId results s
  | .clearWorkflows => { s with workflows := [], activeWorkflow := none }
  | .addApprovalRequest now request => addApprovalRequest now request s
  | .resolveApprovalRequest requestId approved =>
      resolveApprovalRequest requestId approved s
  | .clearApprovals => { s with pendingApprovals := [] }
  | .setExecuting executing task => setExecuting executing task s
  | .addActivity now agentId action details => addActivity now agentId action details s
  | .clearActivity => { s with activityLog := [] }

/-- Effect of a sequence of store actions, first action applied first. -/
def run (s : AgentState) (acts : List Action) : AgentState :=
  acts.foldl step s

/-- Invariant read off the spec for one workflow record: while running,
a defined current step is a member of the steps list. -/
def WorkflowInv (w : Workflow) : Prop :=
  w.status = .running → ∀ st, w.currentStep = some st → st ∈ w.steps

/-- The invariant for every workflow record held in the workflows list. -/
def StoreWorkflowInv (s : AgentState) : Prop :=
  ∀ w ∈ s.workflows, WorkflowInv w

/-- Side condition on an action: an `updateWorkflowStatus` that sets a
running status and supplies a step must supply a step belonging to the
steps list of the workflow it targets.  Every other action is
unconditionally fine. -/
def ActionOk (s : AgentState) : Action → Prop
  | .updateWorkflowStatus _ workflowId status currentStep _ =>
      status = .running → ∀ st, currentStep = some st →
        ∀ w ∈ s.workflows, w.id = workflowId → st ∈ w.steps
  | _ => True

end Store

/-! Concrete inputs used by the witness and counterexample theorems. -/

/-- Attempt outcomes for a request whose first two attempts fail with
HTTP 503 and whose third attempt succeeds with payload 7. -/
def outcomes503 : Nat → Api.AttemptOutcome Nat := fun i =>
  if i < 3 then .failure (.response 503 {}) else .success 7

/-- Attempt outcomes for a request that always fails with HTTP 401. -/
def outcomes401 : Nat → Api.AttemptOutcome Nat := fun _ =>
  .failure (.response 401 {})

/-- A disconnected socket manager with empty queue and no emits yet. -/
def wsStartEx : WS.WSState Nat :=
  { connected := false, isConnecting := false, messageQueue := [], emitted := [] }

/-- Three send calls made while disconnected. -/
def wsCallsEx : List (String × Nat × String) :=
  [("message", 1, "t1"), ("message", 2, "t2"), ("message", 3, "t3")]

/-- `n` successive `addActivity` calls (call `k` at clock value `k`,
with agent id the decimal numeral of `k`). -/
def activityCalls (n : Nat) : List Store.Action :=
  (List.range n).map (fun k => .addActivity (k + 1) (toString (k + 1)) "status" none)

/-- An already-approved approval request. -/
def approvalEx : Store.ApprovalRequest :=
  { id := "approval_1", actionType := "deployment", description := "d",
    riskLevel := .low, status := .approved, timestamp := "1" }

/-- A store state holding exactly the approval request `approvalEx`. -/
def storeWithApprovalEx : Store.AgentState :=
  { Store.initialState with pendingApprovals := [approvalEx] }

/-- Create one approval request, then resolve it as approved. -/
def approvalActs : List Store.Action :=
  [ .addApprovalRequest 1
      { actionType := "deployment", description := "d", riskLevel := .low },
    .resolveApprovalRequest "approval_1" true ]

/-- Start a one-step workflow, then push a running update whose step is
not in the steps list. -/
def workflowActs : List Store.Action :=
  [ .startWorkflow 1 "t" ["a"],
    .updateWorkflowStatus 2 "workflow_1" .running (some "b") none ]

/-! Helper lemmas. -/

/-- Prepending the delay of the first attempt to the delays of the
following `k` attempts gives the delays of `k + 1` consecutive
attempts. -/
theorem cons_map_range (f : Nat → Nat) (a k : Nat) :
    f a :: (List.range k).map (fun i => f (a + 1 + i)) =
      (List.range (k + 1)).map (fun i => f (a + i)) := by
  have hfe : (fun i => f (a + 1 + i)) = (fun i => f (a + i)) ∘ Nat.succ := by
    funext i
    show f (a + 1 + i) = f (a + Nat.succ i)
    congr 1
    omega
  rw [List.range_succ_eq_map, List.map_cons, List.map_map, hfe]
  rw [Nat.add_zero]

/-- Behaviour of the retry loop when the next `k` attempts fail with a
retryable error and attempt `attempt + k` succeeds: the loop returns
the success, performs `k + 1` attempts, and sleeps the computed delay
after each failed attempt. -/
theorem requestLoop_retry_spec {T : Type} (cfg : Api.RetryConfig)
    (outcomes : Nat → Api.AttemptOutcome T) (resp : T) :
    ∀ (k attempt rem : Nat) (le : Api.ApiError), k < rem →
      (∀ i, i < k → ∃ raw, outcomes (attempt + i) = .failure raw ∧
        (Api.handleError cfg raw).retryable = true) →
      outcomes (attempt + k) = .success resp →
      Api.requestLoop cfg outcomes attempt rem le =
        { outcome := .ok resp, attempts := k + 1,
          sleeps := (List.range k).map (fun i => Api.calculateDelay cfg (attempt + i)) } := by
  intro k
  induction k with
  | zero =>
    intro attempt rem le hlt _ hsucc
    obtain ⟨r, rfl⟩ : ∃ r, rem = r + 1 := ⟨rem - 1, by omega⟩
    simp only [Nat.add_zero] at hsucc
    simp [Api.requestLoop, hsucc]
  | succ k ih =>
    intro attempt rem le hlt hfail hsucc
    obtain ⟨r, rfl⟩ : ∃ r, rem = r + 1 := ⟨rem - 1, by omega⟩
    obtain ⟨raw, hraw, hret⟩ := hfail 0 (by omega)
    rw [Nat.add_zero] at hraw
    have hrest := ih (attempt + 1) r (Api.handleError cfg raw) (by omega)
      (fun i hi => by
        obtain ⟨raw2, h1, h2⟩ := hfail (i + 1) (by omega)
        rw [show attempt + (i + 1) = attempt + 1 + i by omega] at h1
        exact ⟨raw2, h1, h2⟩)
      (by rw [show attempt + 1 + k = attempt + (k + 1) by omega]; exact hsucc)
    have hr0 : r ≠ 0 := by omega
    have hcond : ¬ (r = 0 ∨ (Api.handleError cfg raw).retryable = false) := by
      rw [hret]
      simp [hr0]
    simp only [Api.requestLoop, hraw, if_neg hcond, hrest]
    rw [cons_map_range (fun i => Api.calculateDelay cfg i) attempt k]

/-- Behaviour of the retry loop when the first attempt fails with an
error classified terminal: exactly one attempt, no sleep, the error is
thrown. -/
theorem requestLoop_first_terminal {T : Type} (cfg : Api.RetryConfig)
    (outcomes : Nat → Api.AttemptOutcome T) (attempt r : Nat)
    (le : Api.ApiError) (raw : Api.RawError)
    (hraw : outcomes attempt = .failure raw)
    (hret : (Api.handleError cfg raw).retryable = false) :
    Api.requestLoop cfg outcomes attempt (r + 1) le =
      { outcome := .error (Api.handleError cfg raw), attempts := 1, sleeps := [] } := by
  have hcond : r = 0 ∨ (Api.handleError cfg raw).retryable = false := .inr hret
  simp only [Api.requestLoop, hraw, if_pos hcond]

/-- Merging empty per-call overrides leaves the configuration as is. -/
theorem mergeRetryConfig_empty (cfg : Api.RetryConfig) :
    Api.mergeRetryConfig cfg {} = cfg := by
  cases cfg
  rfl

/-- Mapping an update over identified records is the identity when no
record carries the targeted identifier. -/
theorem map_update_noop {α : Type} (idOf : α → String) (target : String) (f : α → α) :
    ∀ l : List α, (∀ a ∈ l, idOf a ≠ target) →
      l.map (fun a => if idOf a = target then f a else a) = l := by
  intro l
  induction l with
  | nil => intro _; rfl
  | cons a t ih =>
    intro h
    rw [List.map_cons, if_neg (h a (List.mem_cons_self a t)),
      ih (fun x hx => h x (List.mem_cons_of_mem a hx))]

/-- A connected drain of the outbound queue emits the whole queue, in
order, after what was already emitted. -/
theorem processQueueAux_connected {α : Type} :
    ∀ q em : List (WS.WebSocketMessage α),
      WS.processQueueAux true q em = ([], em ++ q) := by
  intro q
  induction q with
  | nil => intro em; simp [WS.processQueueAux]
  | cons m rest ih =>
    intro em
    simp [WS.processQueueAux, ih, List.append_assoc]

/-- Sends performed while disconnected only append the corresponding
envelopes, in call order, to the outbound queue. -/
theorem sendAll_disconnected {α : Type} :
    ∀ (calls : List (String × α × String)) (st : WS.WSState α),
      st.connected = false →
        WS.sendAll st calls =
          { st with messageQueue := st.messageQueue ++ calls.map WS.envelope } := by
  intro calls
  induction calls with
  | nil => intro st _; simp [WS.sendAll]
  | cons c rest ih =>
    intro st h
    have hsend : WS.send st c.1 c.2.1 c.2.2 =
        { st with messageQueue := st.messageQueue ++ [WS.envelope c] } := by
      simp [WS.send, h, WS.envelope]
    have : WS.sendAll st (c :: rest) =
        WS.sendAll { st with messageQueue := st.messageQueue ++ [WS.envelope c] } rest := by
      simp only [WS.sendAll, List.foldl_cons, hsend]
    rw [this, ih _ (by simp [h]), List.append_assoc]
    simp

/-! Claim theorems. -/

/-- C1: for every retry configuration with `maxAttempts >= 1` under
which status 503 classifies as retryable, if the first
`maxAttempts - 1` attempts each fail with an HTTP 503 response and the
next attempt succeeds, then `ApiClient.request` returns that successful
response, performs exactly `maxAttempts` attempts (so never more), and
sleeps between consecutive attempts exactly the delays
`calculateDelay cfg 1, ..., calculateDelay cfg (maxAttempts - 1)` given
by the backoff formula. -/
theorem request_retries_503_then_success {T : Type} (cfg : Api.RetryConfig)
    (outcomes : Nat → Api.AttemptOutcome T) (data : Nat → Api.ResponseData) (resp : T)
    (hmax : 1 ≤ cfg.maxAttempts)
    (hretry : cfg.retryableErrors.contains (.num 503) = true)
    (hfail : ∀ i, 1 ≤ i → i < cfg.maxAttempts →
      outcomes i = .failure (.response 503 (data i)))
    (hsucc : outcomes cfg.maxAttempts = .success resp) :
    Api.request cfg {} outcomes =
      { outcome := .ok resp, attempts := cfg.maxAttempts,
        sleeps := (List.range (cfg.maxAttempts - 1)).map
          (fun i => Api.calculateDelay cfg (1 + i)) } := by
  unfold Api.request
  rw [mergeRetryConfig_empty]
  have h := requestLoop_retry_spec cfg outcomes resp (cfg.maxAttempts - 1) 1
    cfg.maxAttempts Api.initialLastError (by omega)
    (fun i hi =>
      ⟨.response 503 (data (1 + i)),
       hfail (1 + i) (by omega) (by omega),
       by
         simp only [Api.handleError, Api.isRetryableError]
         exact hretry⟩)
    (by rw [show 1 + (cfg.maxAttempts - 1) = cfg.maxAttempts by omega]; exact hsucc)
  rw [Nat.sub_add_cancel hmax] at h
  exact h

/-- C1 witness: the default configuration (3 attempts), two 503
failures then success with payload 7. -/
theorem request_retries_503_then_success_witness :
    1 ≤ Api.defaultRetryConfig.maxAttempts ∧
    Api.defaultRetryConfig.retryableErrors.contains (.num 503) = true ∧
    (∀ i, 1 ≤ i → i < Api.defaultRetryConfig.maxAttempts →
      outcomes503 i = .failure (.response 503 {})) ∧
    outcomes503 Api.defaultRetryConfig.maxAttempts = .success 7 ∧
    Api.request Api.defaultRetryConfig {} outcomes503 =
      { outcome := .ok 7, attempts := Api.defaultRetryConfig.maxAttempts,
        sleeps := (List.range (Api.defaultRetryConfig.maxAttempts - 1)).map
          (fun i => Api.calculateDelay Api.defaultRetryConfig (1 + i)) } := by
  have hfail : ∀ i, 1 ≤ i → i < Api.defaultRetryConfig.maxAttempts →
      outcomes503 i = .failure (.response 503 {}) := by
    intro i h1 h2
    have h3 : i < 3 := h2
    interval_cases i <;> rfl
  exact ⟨by decide, by decide, hfail, rfl,
    request_retries_503_then_success Api.defaultRetryConfig outcomes503
      (fun _ => {}) 7 (by decide) (by decide) hfail rfl⟩

/-- C2: the retry delay before attempt `n + 1` is
`min (baseDelay * backoffFactor ^ (n - 1)) maxDelay`, and with the
default configuration (base 1000, factor 2, cap 30000) attempts 1..6
yield 1000, 2000, 4000, 8000, 16000 and 30000 (capped). -/
theorem calculateDelay_formula :
    (∀ (cfg : Api.RetryConfig) (n : Nat), 1 ≤ n →
      Api.calculateDelay cfg n =
        min (cfg.baseDelay * cfg.backoffFactor ^ (n - 1)) cfg.maxDelay) ∧
    (List.range 6).map (fun i => Api.calculateDelay Api.defaultRetryConfig (i + 1)) =
      [1000, 2000, 4000, 8000, 16000, 30000] :=
  ⟨fun _ _ _ => rfl, by decide⟩

/-- C2 witness: the formula instantiated at attempt 4 of the default
configuration. -/
theorem calculateDelay_formula_witness :
    1 ≤ 4 ∧
    Api.calculateDelay Api.defaultRetryConfig 4 =
      min (Api.defaultRetryConfig.baseDelay *
        Api.defaultRetryConfig.backoffFactor ^ (4 - 1)) Api.defaultRetryConfig.maxDelay :=
  ⟨by decide, calculateDelay_formula.1 Api.defaultRetryConfig 4 (by decide)⟩

/-- C3: under the configuration the client is constructed with, an HTTP
response error is classified retryable exactly when its status is one
of 408, 429, 500, 502, 503, 504; a transport failure with no response
is always retryable; and a request whose first attempt fails with
status 401 performs exactly one attempt (no retry, no sleep) and throws
that error, whatever the remaining attempt budget is. -/
theorem retryable_classification :
    (∀ (status : Nat) (data : Api.ResponseData),
      (Api.handleError Api.defaultRetryConfig (.response status data)).retryable = true ↔
        status ∈ ([408, 429, 500, 502, 503, 504] : List Nat)) ∧
    (∀ cfg : Api.RetryConfig, (Api.handleError cfg .request).retryable = true) ∧
    (∀ (T : Type) (custom : Api.RetryConfigOverrides)
        (outcomes : Nat → Api.AttemptOutcome T) (data : Api.ResponseData),
      1 ≤ (Api.mergeRetryConfig Api.defaultRetryConfig custom).maxAttempts →
      outcomes 1 = .failure (.response 401 data) →
      Api.request Api.defaultRetryConfig custom outcomes =
        { outcome := .error (Api.handleError Api.defaultRetryConfig (.response 401 data)),
          attempts := 1, sleeps := [] }) := by
  refine ⟨?_, fun _ => rfl, ?_⟩
  · intro status data
    simp [Api.handleError, Api.isRetryableError, Api.defaultRetryConfig,
      List.elem_iff]
  · intro T custom outcomes data hmax houtcome
    unfold Api.request
    obtain ⟨m, hm⟩ : ∃ m, (Api.mergeRetryConfig Api.defaultRetryConfig custom).maxAttempts
        = m + 1 :=
      ⟨(Api.mergeRetryConfig Api.defaultRetryConfig custom).maxAttempts - 1, by omega⟩
    rw [hm]
    exact requestLoop_first_terminal Api.defaultRetryConfig outcomes 1 m
      Api.initialLastError (.response 401 data) houtcome rfl

/-- C3 witness: a 401 failure on the first attempt with the default
configuration (3 attempts remaining) ends after one attempt. -/
theorem retryable_classification_witness :
    1 ≤ (Api.mergeRetryConfig Api.defaultRetryConfig {}).maxAttempts ∧
    outcomes401 1 = .failure (.response 401 {}) ∧
    Api.request Api.defaultRetryConfig {} outcomes401 =
      { outcome := .error (Api.handleError Api.defaultRetryConfig (.response 401 {})),
        attempts := 1, sleeps := [] } :=
  ⟨by decide, rfl,
   retryable_classification.2.2 Nat {} outcomes401 {} (by decide) rfl⟩

/-- C4: messages sent while the socket is disconnected are appended to
the outbound queue in call order (none emitted, connectivity untouched),
and a successful reconnect (whose handler runs `processMessageQueue`)
transmits the whole queue exactly once, in original insertion order,
emptying it. -/
theorem ws_queue_fifo_drain (α : Type) :
    (∀ (st : WS.WSState α) (calls : List (String × α × String)),
      st.connected = false →
        (WS.sendAll st calls).messageQueue =
          st.messageQueue ++ calls.map WS.envelope ∧
        (WS.sendAll st calls).emitted = st.emitted ∧
        (WS.sendAll st calls).connected = false) ∧
    (∀ st : WS.WSState α, st.connected = true →
      (WS.processMessageQueue st).messageQueue = [] ∧
      (WS.processMessageQueue st).emitted = st.emitted ++ st.messageQueue) ∧
    (∀ st : WS.WSState α,
      (WS.onConnectSuccess st).messageQueue = [] ∧
      (WS.onConnectSuccess st).emitted = st.emitted ++ st.messageQueue) := by
  refine ⟨?_, ?_, ?_⟩
  · intro st calls h
    rw [sendAll_disconnected calls st h]
    exact ⟨rfl, rfl, h⟩
  · intro st h
    simp [WS.processMessageQueue, h, processQueueAux_connected]
  · intro st
    simp [WS.onConnectSuccess, WS.processMessageQueue, processQueueAux_connected]

/-- C4 witness: three sends from a disconnected empty-queue state, then
a successful reconnect. -/
theorem ws_queue_fifo_drain_witness :
    wsStartEx.connected = false ∧
    ((WS.sendAll wsStartEx wsCallsEx).messageQueue =
        wsStartEx.messageQueue ++ wsCallsEx.map WS.envelope ∧
      (WS.sendAll wsStartEx wsCallsEx).emitted = wsStartEx.emitted ∧
      (WS.sendAll wsStartEx wsCallsEx).connected = false) ∧
    ((WS.onConnectSuccess (WS.sendAll wsStartEx wsCallsEx)).messageQueue = [] ∧
      (WS.onConnectSuccess (WS.sendAll wsStartEx wsCallsEx)).emitted =
        (WS.sendAll wsStartEx wsCallsEx).emitted ++
          (WS.sendAll wsStartEx wsCallsEx).messageQueue) :=
  ⟨rfl, (ws_queue_fifo_drain Nat).1 wsStartEx wsCallsEx rfl,
    (ws_queue_fifo_drain Nat).2.2 (WS.sendAll wsStartEx wsCallsEx)⟩

set_option maxRecDepth 40000 in
/-- C5: one `addActivity` always leaves at most 100 entries, and 105
calls starting from the empty log leave exactly 100 entries,
newest-first (agent ids 105 down to 6), with the entries of the 5
oldest calls (ids 1..5) absent. -/
theorem activityLog_bounded_newest_first :
    (∀ (s : Store.AgentState) (now : Nat) (agentId action : String)
        (details : Option String),
      ((Store.addActivity now agentId action details s).activityLog).length ≤ 100) ∧
    (Store.run Store.initialState (activityCalls 105)).activityLog.length = 100 ∧
    (Store.run Store.initialState (activityCalls 105)).activityLog.map
        (fun e => e.agentId) =
      (List.range 100).map (fun i => toString (105 - i)) ∧
    (((Store.run Store.initialState (activityCalls 105)).activityLog.map
        (fun e => e.agentId)).contains "1" = false ∧
      ((Store.run Store.initialState (activityCalls 105)).activityLog.map
        (fun e => e.agentId)).contains "2" = false ∧
      ((Store.run Store.initialState (activityCalls 105)).activityLog.map
        (fun e => e.agentId)).contains "3" = false ∧
      ((Store.run Store.initialState (activityCalls 105)).activityLog.map
        (fun e => e.agentId)).contains "4" = false ∧
      ((Store.run Store.initialState (activityCalls 105)).activityLog.map
        (fun e => e.agentId)).contains "5" = false) := by
  refine ⟨?_, by decide, by decide, by decide, by decide, by decide, by decide, by decide⟩
  intro s now agentId action details
  simp only [Store.addActivity, List.length_cons, List.length_take]
  omega

/-- C7: resolving an approval identifier that matches no pending
approval leaves the store unchanged (in particular the approvals list:
nothing thrown, nothing created). -/
theorem resolveApproval_unknown_noop (s : Store.AgentState)
    (requestId : String) (approved : Bool)
    (h : ∀ r ∈ s.pendingApprovals, r.id ≠ requestId) :
    Store.resolveApprovalRequest requestId approved s = s := by
  cases s with
  | mk agents workflows activeWorkflow pendingApprovals isExecuting currentTask activityLog =>
    simp only [Store.resolveApprovalRequest]
    rw [map_update_noop (fun r => r.id) requestId _ pendingApprovals h]

/-- C7 witness: resolving an identifier absent from a one-element
approvals list. -/
theorem resolveApproval_unknown_noop_witness :
    (∀ r ∈ storeWithApprovalEx.pendingApprovals, r.id ≠ "missing") ∧
    Store.resolveApprovalRequest "missing" true storeWithApprovalEx =
      storeWithApprovalEx :=
  ⟨by decide, resolveApproval_unknown_noop storeWithApprovalEx "missing" true (by decide)⟩

/-- C8: `updateAgentStatus` keeps the agents list the same length and,
position by position, replaces exactly the matching record
(status, current task, error, and progress set to 100 when the new
status is completed, else 0 — id, name and last-completed timestamp
untouched) while every non-matching record is returned unchanged. -/
theorem updateAgentStatus_frame (agents : List Store.Agent) (agentId : String)
    (status : Store.AgentStatus) (task errText : Option String) :
    (Store.updateAgentStatus agentId status task errText agents).length =
      agents.length ∧
    ∀ (i : Nat) (h : i < agents.length)
      (h2 : i < (Store.updateAgentStatus agentId status task errText agents).length),
      (Store.updateAgentStatus agentId status task errText agents).get ⟨i, h2⟩ =
        if (agents.get ⟨i, h⟩).id = agentId then
          { agents.get ⟨i, h⟩ with
            status := status, currentTask := task, error := errText,
            progress := some (if status = .completed then 100 else 0) }
        else agents.get ⟨i, h⟩ := by
  refine ⟨by simp [Store.updateAgentStatus], ?_⟩
  intro i h h2
  simp [Store.updateAgentStatus, List.get_eq_getElem, List.getElem_map]

/-- C8 witness: completing the repository analyzer updates position 0
and leaves position 1 (the requirements extractor) unchanged. -/
theorem updateAgentStatus_frame_witness :
    ((Store.updateAgentStatus "repository_analyzer" .completed none none
        Store.initialAgents).length = Store.initialAgents.length) ∧
    ((Store.updateAgentStatus "repository_analyzer" .completed none none
        Store.initialAgents).get ⟨0, by decide⟩ =
      if (Store.initialAgents.get ⟨0, by decide⟩).id = "repository_analyzer" then
        { Store.initialAgents.get ⟨0, by decide⟩ with
          status := .completed, currentTask := none, error := none,
          progress := some (if Store.AgentStatus.completed = .completed then 100 else 0) }
      else Store.initialAgents.get ⟨0, by decide⟩) ∧
    ((Store.updateAgentStatus "repository_analyzer" .completed none none
        Store.initialAgents).get ⟨1, by decide⟩ =
      if (Store.initialAgents.get ⟨1, by decide⟩).id = "repository_analyzer" then
        { Store.initialAgents.get ⟨1, by decide⟩ with
          status := .completed, currentTask := none, error := none,
          progress := some (if Store.AgentStatus.completed = .completed then 100 else 0) }
      else Store.initialAgents.get ⟨1, by decide⟩) :=
  ⟨(updateAgentStatus_frame Store.initialAgents "repository_analyzer"
      .completed none none).1,
   (updateAgentStatus_frame Store.initialAgents "repository_analyzer"
      .completed none none).2 0 (by decide) (by decide),
   (updateAgentStatus_frame Store.initialAgents "repository_analyzer"
      .completed none none).2 1 (by decide) (by decide)⟩

/-- C10: when no agent in the list carries the given identifier, both
`updateAgentStatus` and `updateAgentProgress` return the agents list
unchanged (total functions: nothing thrown, no record added). -/
theorem unknown_agent_noop (agents : List Store.Agent) (agentId : String)
    (status : Store.AgentStatus) (task errText : Option String) (progress : Nat)
    (h : ∀ a ∈ agents, a.id ≠ agentId) :
    Store.updateAgentStatus agentId status task errText agents = agents ∧
    Store.updateAgentProgress agentId progress agents = agents := by
  refine ⟨?_, ?_⟩
  · exact map_update_noop (fun a : Store.Agent => a.id) agentId
      (fun agent : Store.Agent =>
        { agent with
            status := status
            currentTask := task
            error := errText
            progress := some (if status = .completed then 100 else 0) })
      agents h
  · exact map_update_noop (fun a : Store.Agent => a.id) agentId
      (fun agent : Store.Agent => { agent with progress := some progress }) agents h

/-- C10 witness: an identifier outside the fixed five-agent catalog. -/
theorem unknown_agent_noop_witness :
    (∀ a ∈ Store.initialAgents, a.id ≠ "unknown_agent") ∧
    Store.updateAgentStatus "unknown_agent" .completed none none
      Store.initialAgents = Store.initialAgents ∧
    Store.updateAgentProgress "unknown_agent" 50 Store.initialAgents =
      Store.initialAgents :=
  ⟨by decide,
   unknown_agent_noop Store.initialAgents "unknown_agent" .completed none none 50
     (by decide)⟩

/-- C6 counterexample: after creating one approval request and
resolving it as approved, a further `resolveApprovalRequest` on the
same identifier changes the already-approved status to rejected — the
source maps the status unconditionally, so an approved or rejected
status is not immutable. -/
theorem approval_status_reversal_counterexample :
    (Store.run Store.initialState approvalActs).pendingApprovals.map
        (fun r => (r.id, r.status)) = [("approval_1", .approved)] ∧
    (Store.run Store.initialState
        (approvalActs ++ [.resolveApprovalRequest "approval_1" false])).pendingApprovals.map
        (fun r => (r.id, r.status)) = [("approval_1", .rejected)] := by
  exact ⟨by decide, by decide⟩

/-- C6 amended: no store action ever sets an existing approval record
back to pending — a record holding status approved or rejected at some
position still holds a non-pending status at that position after any
action (a repeated `resolveApprovalRequest`, however, may overwrite
approved with rejected or vice versa, as the counterexample shows). -/
theorem approval_never_back_to_pending (s : Store.AgentState) (a : Store.Action)
    (i : Nat) (h : i < s.pendingApprovals.length)
    (h2 : i < (Store.step s a).pendingApprovals.length)
    (hres : (s.pendingApprovals.get ⟨i, h⟩).status ≠ .pending) :
    ((Store.step s a).pendingApprovals.get ⟨i, h2⟩).status ≠ .pending := by
  cases a with
  | addApprovalRequest now request =>
    have hlt : i < s.pendingApprovals.length := h
    show ((s.pendingApprovals ++ [_]).get ⟨i, h2⟩).status ≠ .pending
    rw [List.get_eq_getElem, List.getElem_append_left hlt]
    exact hres
  | resolveApprovalRequest requestId approved =>
    show (((s.pendingApprovals.map _).get ⟨i, h2⟩)).status ≠ .pending
    rw [List.get_eq_getElem, List.getElem_map]
    by_cases hid : (s.pendingApprovals[i]).id = requestId
    · rw [if_pos hid]
      cases approved <;> simp
    · rw [if_neg hid]
      exact hres
  | clearApprovals =>
    have h0 : (Store.step s .clearApprovals).pendingApprovals = [] := rfl
    rw [h0] at h2
    simp at h2
  | updateAgentStatus agentId status task errText => exact hres
  | updateAgentProgress agentId progress => exact hres
  | resetAgents => exact hres
  | startWorkflow now type_ steps => exact hres
  | updateWorkflowStatus now workflowId status currentStep errText => exact hres
  | completeWorkflow now workflowId results => exact hres
  | clearWorkflows => exact hres
  | setExecuting executing task => exact hres
  | addActivity now agentId action details => exact hres
  | clearActivity => exact hres

/-- C6 amended witness: re-resolving an approved request keeps it
non-pending. -/
theorem approval_never_back_to_pending_witness :
    (0 : Nat) < storeWithApprovalEx.pendingApprovals.length ∧
    (0 : Nat) <
      (Store.step storeWithApprovalEx
        (.resolveApprovalRequest "approval_1" false)).pendingApprovals.length ∧
    (storeWithApprovalEx.pendingApprovals.get ⟨0, by decide⟩).status ≠ .pending ∧
    ((Store.step storeWithApprovalEx
        (.resolveApprovalRequest "approval_1" false)).pendingApprovals.get
          ⟨0, by decide⟩).status ≠ .pending :=
  ⟨by decide, by decide, by decide,
   approval_never_back_to_pending storeWithApprovalEx
     (.resolveApprovalRequest "approval_1" false) 0 (by decide) (by decide) (by decide)⟩

/-- C9 counterexample: `updateWorkflowStatus` performs no membership
check on the supplied step, so after starting a workflow with steps
`["a"]` and pushing a running update with step `"b"`, the store holds a
running workflow whose current step is not a member of its steps
list. -/
theorem workflow_currentStep_counterexample :
    (Store.run Store.initialState workflowActs).workflows.map
        (fun w => (w.status, w.currentStep, w.steps)) =
      [(.running, some "b", ["a"])] ∧
    "b" ∉ (["a"] : List String) := by
  exact ⟨by decide, by decide⟩

/-- C9 amended: the invariant — a running workflow record whose current
step is defined has that step in its steps list — holds for every
workflow in the workflows list and is preserved by every store action,
provided each `updateWorkflowStatus` that sets a running status and
supplies a step supplies one drawn from the steps list of the workflow
it targets (`startWorkflow` establishes the invariant for the record it
creates; `completeWorkflow` and all other actions preserve it
unconditionally). -/
theorem workflow_currentStep_invariant (s : Store.AgentState) (a : Store.Action)
    (hInv : Store.StoreWorkflowInv s) (hOk : Store.ActionOk s a) :
    Store.StoreWorkflowInv (Store.step s a) := by
  cases a with
  | startWorkflow now type_ steps =>
    intro w hw
    have hw2 : w ∈ s.workflows ++
        [{ id := "workflow_" ++ toString now, type := type_, status := .running,
           startTime := some (toString now), steps := steps,
           currentStep := steps.head? : Store.Workflow }] := hw
    rw [List.mem_append] at hw2
    rcases hw2 with hw2 | hw2
    · exact hInv w hw2
    · rw [List.mem_singleton] at hw2
      subst hw2
      intro _ st hst
      cases steps with
      | nil => simp at hst
      | cons x t =>
        have : some x = some st := hst
        rw [Option.some_inj] at this
        subst this
        exact List.mem_cons_self x t
  | updateWorkflowStatus now workflowId status currentStep errText =>
    intro w hw
    have hw2 : w ∈ s.workflows.map (fun w0 =>
        if w0.id = workflowId then
          { w0 with status := status, currentStep := currentStep, error := errText,
                    endTime :=
                      if status = .completed ∨ status = .error
                      then some (toString now) else none }
        else w0) := hw
    rw [List.mem_map] at hw2
    obtain ⟨w0, hw0, rfl⟩ := hw2
    by_cases hid : w0.id = workflowId
    · rw [if_pos hid]
      intro hrun st hst
      exact hOk hrun st hst w0 hw0 hid
    · rw [if_neg hid]
      exact hInv w0 hw0
  | completeWorkflow now workflowId results =>
    intro w hw
    have hw2 : w ∈ s.workflows.map (fun w0 =>
        if w0.id = workflowId then
          { w0 with status := .completed, results := some results,
                    endTime := some (toString now) }
        else w0) := hw
    rw [List.mem_map] at hw2
    obtain ⟨w0, hw0, rfl⟩ := hw2
    by_cases hid : w0.id = workflowId
    · rw [if_pos hid]
      intro hrun
      exact nomatch hrun
    · rw [if_neg hid]
      exact hInv w0 hw0
  | clearWorkflows =>
    intro w hw
    simp [Store.step] at hw
  | updateAgentStatus agentId status task errText => exact hInv
  | updateAgentProgress agentId progress => exact hInv
  | resetAgents => exact hInv
  | addApprovalRequest now request => exact hInv
  | resolveApprovalRequest requestId approved => exact hInv
  | clearApprovals => exact hInv
  | setExecuting executing task => exact hInv
  | addActivity now agentId action details => exact hInv
  | clearActivity => exact hInv

/-- C9 amended witness: starting a workflow from the initial store
establishes the invariant. -/
theorem workflow_currentStep_invariant_witness :
    Store.StoreWorkflowInv Store.initialState ∧
    Store.ActionOk Store.initialState (.startWorkflow 1 "t" ["a"]) ∧
    Store.StoreWorkflowInv
      (Store.step Store.initialState (.startWorkflow 1 "t" ["a"])) := by
  have h1 : Store.StoreWorkflowInv Store.initialState := by
    intro w hw
    simp [Store.initialState] at hw
  have h2 : Store.ActionOk Store.initialState (.startWorkflow 1 "t" ["a"]) := trivial
  exact ⟨h1, h2, workflow_currentStep_invariant Store.initialState _ h1 h2⟩
